import Mathlib

/-!
Verification model of the `phaserunner` repository (Python 2 sources
`phaserunner.py`, `snippets/named_slices.py`).

The embedding below translates the code directly:

* Python values that flow through the argument pool, are returned by work
  units, or are stored in `stop_on_fail` attributes are modelled by `PyVal`
  with Python truthiness (`truthy`).
* Python dictionaries keyed by strings are modelled as association lists
  with first-key-wins lookup and overwrite-on-set (`lookup`/`dictSet`);
  CPython 2 dicts guarantee no iteration order, and the code only ever uses
  key lookup and membership, so this is an equivalent model.
* A raised Python exception is an `Except.error`; falling off the end of a
  Python function (implicitly returning `None`) produces `PyVal.none`.
-/

set_option autoImplicit false

namespace Phaserunner

/-- Python values as used by the phaserunner code: `None`, booleans,
integers, strings and sequences (lists/tuples are both `list` here). -/
inductive PyVal where
  | none
  | bool (b : Bool)
  | int (n : Int)
  | str (s : String)
  | list (xs : List PyVal)

/-- Python truthiness of a `PyVal` (`bool(v)`). -/
def truthy : PyVal → Bool
  | PyVal.none => false
  | PyVal.bool b => b
  | PyVal.int n => n != 0
  | PyVal.str s => !s.isEmpty
  | PyVal.list xs => !xs.isEmpty

/-- Python `x or y`: returns `x` when `x` is truthy, else `y`. -/
def pyOr (x y : PyVal) : PyVal := if truthy x then x else y

/-- Python `s.lower()` (ASCII names only in this program), written over
the character list so that it reduces definitionally. -/
def pyLower (s : String) : String := String.mk (s.data.map Char.toLower)

/-- The shared argument pool: a Python dict from argument name to value
(`phaserunner.py`, `self._arg_pool`). -/
abbrev ArgPool := List (String × PyVal)

/-- Dict lookup `p[k]` / `p.get(k)`: first binding of the key wins. -/
def lookup : ArgPool → String → Option PyVal
  | [], _ => Option.none
  | kv :: rest, k => if kv.1 == k then some kv.2 else lookup rest k

/-- Dict membership `k in p.keys()`. -/
def hasKey (p : ArgPool) (k : String) : Bool := (lookup p k).isSome

/-- Dict assignment `p[k] = v`: overwrite the binding for `k`, or append a
new one. -/
def dictSet : ArgPool → String → PyVal → ArgPool
  | [], k, v => [(k, v)]
  | kv :: rest, k, v => if kv.1 == k then (k, v) :: rest else kv :: dictSet rest k v

/-- Keyword-argument dict handed to a work unit (`function_args` in
`PhaseRunnerPhase.run`). -/
abbrev FnArgs := List (String × PyVal)

/-- The exceptions the phaserunner code can raise.  Each constructor
records the data interpolated into the corresponding message string:

* `duplicatePhase`: `PhaseRunnerError` from `PhaseRunner.add_phase`;
* `missingRequiredArguments`: `PhaseRunnerError` from
  `PhaseRunnerPhase.run` (lists every missing required argument);
* `contractViolation`: `PhaseRunnerError` "needs to return a boolean as
  its first value";
* `missingOutputs`: `PhaseRunnerError` "Expected return values for phase";
* `unknownFirstPhase` / `unknownLastPhase`: `exceptions.IndexError` from
  `PhaseRunner._get_phases`;
* `invalidRange`: `PhaseRunnerError` "First Phase ... must be earlier in
  the phase list than Last Phase ...";
* `listIndexError`: Python `IndexError` from subscripting an empty
  sequence;
* `typeError`: Python `TypeError` (subscripting a non-sequence, iterating
  a non-iterable, item-assignment on `None`, or `", ".join` over
  non-string values). -/
inductive PRErr where
  | duplicatePhase (name : String)
  | missingRequiredArguments (phase : String) (missing : List String)
  | contractViolation (phase : String)
  | missingOutputs (phase : String) (expected : List String) (returned : List PyVal)
  | unknownFirstPhase (name : String)
  | unknownLastPhase (name : String)
  | invalidRange (first last : Option String)
  | listIndexError
  | typeError

/-- One registered phase (`PhaseRunnerPhase.__init__`).  The Python object
also stores a reference to the runner's arg pool; because that reference is
always the owning runner's (only ever mutated in place via `update` /
item assignment, never rebound), the pool is passed to `run` explicitly
here instead.  `required_args = None` and `required_args = []` behave
identically everywhere in the source (both falsy, both loop zero times),
so option lists are flattened to plain lists. -/
structure Phase where
  name : String
  fn : FnArgs → PyVal
  required_args : List String
  optional_args : List String
  outputs : List String
  stop_on_fail : PyVal
  status : Option Bool

/-- Everything observable about one call of `PhaseRunnerPhase.run`: the
returned status or raised exception, the phase's `_status` field
afterwards, and the arg pool afterwards. -/
structure RunOut where
  result : Except PRErr Bool
  status : Option Bool
  pool : Option ArgPool

/-- Is this `PyVal` a Python string? (`", ".join` only accepts strings). -/
def isStr : PyVal → Bool
  | PyVal.str _ => true
  | _ => false

/-- `function_args` as assembled by `PhaseRunnerPhase.run` lines 60-77:
required arguments first (all present, by the time this is used), then
every optional argument present in the pool. -/
def buildFnArgs (ph : Phase) (pool : ArgPool) : FnArgs :=
  let withReq := ph.required_args.foldl
    (fun acc req => if hasKey pool req then dictSet acc req ((lookup pool req).getD PyVal.none) else acc)
    []
  ph.optional_args.foldl
    (fun acc opt => if hasKey pool opt then dictSet acc opt ((lookup pool opt).getD PyVal.none) else acc)
    withReq

/-- Write the declared outputs into the pool positionally
(`PhaseRunnerPhase.run` lines 100-101: `self._arg_pool[rv] =
return_vals[index + 1]`). -/
def writeOutputs (pool : ArgPool) (outputs : List String) (vals : List PyVal) : ArgPool :=
  (outputs.zip vals).foldl (fun p kv => dictSet p kv.1 kv.2) pool

/-- Tail of `PhaseRunnerPhase.run` once the status boolean `b` and the
remaining return values `rest` are known (lines 93-103): record the
status, then check and write outputs.  The `MissingOutputs` message joins
`return_vals[1:]` with `", "`, which itself raises `TypeError` when any
of those values is not a string — modelled faithfully. -/
def Phase.finish (ph : Phase) (pool? : Option ArgPool) (b : Bool) (rest : List PyVal) : RunOut :=
  if ph.outputs.isEmpty then
    { result := Except.ok b, status := some b, pool := pool? }
  else if rest.length < ph.outputs.length then
    if rest.all isStr then
      { result := Except.error (PRErr.missingOutputs ph.name ph.outputs rest), status := some b, pool := pool? }
    else
      { result := Except.error PRErr.typeError, status := some b, pool := pool? }
  else
    match pool? with
    | some pool => { result := Except.ok b, status := some b, pool := some (writeOutputs pool ph.outputs rest) }
    | Option.none => { result := Except.error PRErr.typeError, status := some b, pool := Option.none }

/-- `PhaseRunnerPhase.run` (lines 53-103).  Steps: check required
arguments against the pool (collecting all missing names), assemble
`function_args`, call the work unit, normalise `None`/bare-boolean
returns, check the first returned value is a boolean, record the status,
and write outputs.  A returned string is subscriptable in Python
(`return_vals[0]` is its first character, never a boolean); a returned
int raises `TypeError` on subscripting; an empty sequence raises
`IndexError`. -/
def Phase.run (ph : Phase) (pool? : Option ArgPool) : RunOut :=
  let gate : Except PRErr FnArgs :=
    match pool? with
    | Option.none => Except.ok []
    | some pool =>
      let missing := ph.required_args.filter (fun req => !hasKey pool req)
      if missing.length > 0 then
        Except.error (PRErr.missingRequiredArguments ph.name missing)
      else
        Except.ok (buildFnArgs ph pool)
  match gate with
  | Except.error e => { result := Except.error e, status := ph.status, pool := pool? }
  | Except.ok fargs =>
    match ph.fn fargs with
    | PyVal.none => ph.finish pool? true []
    | PyVal.bool b => ph.finish pool? b []
    | PyVal.list [] =>
      { result := Except.error PRErr.listIndexError, status := ph.status, pool := pool? }
    | PyVal.list (PyVal.bool b :: rest) => ph.finish pool? b rest
    | PyVal.list (_ :: _) =>
      { result := Except.error (PRErr.contractViolation ph.name), status := ph.status, pool := pool? }
    | PyVal.str s =>
      if s.isEmpty then
        { result := Except.error PRErr.listIndexError, status := ph.status, pool := pool? }
      else
        { result := Except.error (PRErr.contractViolation ph.name), status := ph.status, pool := pool? }
    | PyVal.int _ =>
      { result := Except.error PRErr.typeError, status := ph.status, pool := pool? }

/-- The runner (`PhaseRunner.__init__`).  The base class defines no
`pre_run`/`post_run`; `run_phases` detects them with `hasattr`, so they
are modelled as optional fields (`Option.none` on the base class, set on
subclasses).  A hook is a zero-argument callable whose single invocation
either returns a value or raises; in a pure embedding it is the
`Except String PyVal` it produces. -/
structure PhaseRunner where
  phases : List Phase
  arg_pool : ArgPool
  stop_on_fail : PyVal
  first_phase : Option String
  last_phase : Option String
  pre_run : Option (Except String PyVal)
  post_run : Option (Except String PyVal)

/-- `PhaseRunner.__init__(**kwargs)` (lines 107-113): the arg pool is
primed with a copy of the keyword arguments (`copy.copy(kwargs) or {}` is
the kwargs dict either way), and
`self._stop_on_fail = kwargs.get("stop_on_fail") or True`. -/
def PhaseRunner.init (kwargs : List (String × PyVal)) : PhaseRunner :=
  { phases := []
    arg_pool := kwargs
    stop_on_fail := pyOr ((lookup kwargs "stop_on_fail").getD PyVal.none) (PyVal.bool true)
    first_phase := Option.none
    last_phase := Option.none
    pre_run := Option.none
    post_run := Option.none }

/-- `PhaseRunner.phase_list` (lines 141-143). -/
def PhaseRunner.phase_list (r : PhaseRunner) : List String := r.phases.map Phase.name

/-- `PhaseRunner.phase_exists` (lines 145-147): exact membership test
`phase_name in self.phase_list`. -/
def PhaseRunner.phase_exists (r : PhaseRunner) (phase_name : String) : Bool :=
  r.phase_list.contains phase_name

/-- `PhaseRunner.add_phase` (lines 115-132).  `stop_on_fail_kw` is `some v`
when the caller passed a `stop_on_fail=` keyword argument. -/
def PhaseRunner.add_phase (r : PhaseRunner) (phase_name : String) (phase_function : FnArgs → PyVal)
    (required_args optional_args outputs : List String) (stop_on_fail_kw : Option PyVal) :
    Except PRErr PhaseRunner :=
  if !r.phase_exists phase_name then
    Except.ok { r with
      phases := r.phases ++ [{
        name := phase_name
        fn := phase_function
        required_args := required_args
        optional_args := optional_args
        outputs := outputs
        stop_on_fail := stop_on_fail_kw.getD r.stop_on_fail
        status := Option.none }] }
  else
    Except.error (PRErr.duplicatePhase phase_name)

/-- The `stop_on_fail` property setter (lines 183-184). -/
def PhaseRunner.set_stop_on_fail (r : PhaseRunner) (value : PyVal) : PhaseRunner :=
  { r with stop_on_fail := value }

/-- `PhaseRunner._get_phase_index` (lines 186-192): index of the first
phase whose lowercased name matches, else `-1`. -/
def PhaseRunner._get_phase_index (r : PhaseRunner) (phase_name : String) : Int :=
  match r.phases.findIdx? (fun p => pyLower p.name == pyLower phase_name) with
  | some i => (i : Int)
  | Option.none => -1

/-- `first_index` as computed by `PhaseRunner._get_phases` line 196. -/
def PhaseRunner.resolveFirst (r : PhaseRunner) (first_phase : Option String) : Int :=
  match first_phase with
  | Option.none => 0
  | some n => r._get_phase_index n

/-- `last_index` as computed by `PhaseRunner._get_phases` line 197:
`len(self._phases)` for an absent bound, else the looked-up index plus
one. -/
def PhaseRunner.resolveLast (r : PhaseRunner) (last_phase : Option String) : Int :=
  match last_phase with
  | Option.none => (r.phases.length : Int)
  | some n => r._get_phase_index n + 1

/-- Python list slice `xs[a:b]` for the non-negative indices produced by
`_get_phases`. -/
def listSlice (xs : List Phase) (a b : Int) : List Phase :=
  (xs.drop a.toNat).take (b.toNat - a.toNat)

/-- `PhaseRunner._get_phases` (lines 194-204).  Returns `Sum.inl` for the
slice `self._phases[first_index:last_index]` taken when
`last_index > first_index`, and `Sum.inr` for the single phase object
`self._phases[first_index]` returned when the indices are equal
(`listIndexError` when that subscript is out of range). -/
def PhaseRunner._get_phases (r : PhaseRunner) (first_phase last_phase : Option String) :
    Except PRErr (List Phase ⊕ Phase) :=
  let first_index := r.resolveFirst first_phase
  let last_index := r.resolveLast last_phase
  if first_index = -1 then
    Except.error (PRErr.unknownFirstPhase (first_phase.getD ""))
  else if last_index = -1 then
    Except.error (PRErr.unknownLastPhase (last_phase.getD ""))
  else if last_index < first_index then
    Except.error (PRErr.invalidRange first_phase last_phase)
  else if first_index < last_index then
    Except.ok (Sum.inl (listSlice r.phases first_index last_index))
  else
    match r.phases.get? first_index.toNat with
    | some p => Except.ok (Sum.inr p)
    | Option.none => Except.error PRErr.listIndexError

/-- The `success` value a hook invocation leaves behind: the hook's return
value, or `False` when it raised (`except Exception: success = False`). -/
def hookSuccess : Except String PyVal → PyVal
  | Except.ok v => v
  | Except.error _ => PyVal.bool false

/-- Whether a configured hook makes `run_phases` return `False`
(`if self._stop_on_fail and not success: return False`); an absent hook
is skipped. -/
def hookAborts (hook : Option (Except String PyVal)) (sof : PyVal) : Bool :=
  match hook with
  | Option.none => false
  | some res => truthy sof && !truthy (hookSuccess res)

/-- Python `first_phase or self._first_phase` on optional strings: an
empty string is falsy, so it also falls back. -/
def pyOrOpt (x y : Option String) : Option String :=
  match x with
  | some s => if s.isEmpty then y else some s
  | Option.none => y

/-- The phase loop of `PhaseRunner.run_phases` (lines 229-245).  Returns
the pool afterwards, the phase list with updated statuses (phases after an
abort keep their previous status), and `some False` when the loop hit
`return False` (`if not success: if self._stop_on_fail and
phase.stop_on_fail: ...`).  An exception from `phase.run()` is caught
(`except Exception`) and treated as `success = False`. -/
def runLoop (sof : PyVal) (pool : ArgPool) : List Phase → ArgPool × List Phase × Option PyVal
  | [] => (pool, [], Option.none)
  | p :: rest =>
    let out := p.run (some pool)
    let success : Bool :=
      match out.result with
      | Except.ok b => b
      | Except.error _ => false
    let p' := { p with status := out.status }
    let pool' := out.pool.getD pool
    if !success && (truthy sof && truthy p.stop_on_fail) then
      (pool', p' :: rest, some (PyVal.bool false))
    else
      match runLoop sof pool' rest with
      | (pool'', rest', res) => (pool'', p' :: rest', res)

/-- `PhaseRunner.run_phases` (lines 206-266).  Bounds: call argument `or`
configured instance bound.  Range resolution errors propagate (they are
raised before any `try`).  The pre-run hook, the phase loop, and the
post-run hook each may `return False`; otherwise the function falls off
the end and returns `None` (`PyVal.none`).  When `_get_phases` produced a
single phase object (equal indices), `for phase in phases` raises
`TypeError` — but only after the pre-run block has run.  The result also
carries the final pool and the resolved phases with their final
statuses. -/
def PhaseRunner.run_phases (r : PhaseRunner) (first_phase last_phase : Option String) :
    Except PRErr (PyVal × ArgPool × List Phase) :=
  let fp := pyOrOpt first_phase r.first_phase
  let lp := pyOrOpt last_phase r.last_phase
  match r._get_phases fp lp with
  | Except.error e => Except.error e
  | Except.ok sel =>
    if hookAborts r.pre_run r.stop_on_fail then
      Except.ok (PyVal.bool false, r.arg_pool, [])
    else
      match sel with
      | Sum.inr _ => Except.error PRErr.typeError
      | Sum.inl phases =>
        match runLoop r.stop_on_fail r.arg_pool phases with
        | (pool', phases', some v) => Except.ok (v, pool', phases')
        | (pool', phases', Option.none) =>
          if hookAborts r.post_run r.stop_on_fail then
            Except.ok (PyVal.bool false, pool', phases')
          else
            Except.ok (PyVal.none, pool', phases')

/-! `snippets/named_slices.py`.  The module imports only `types`: the
`exceptions` module referenced in its error paths is never imported, so
reaching any of its `raise exceptions.IndexError(...)` statements in fact
raises `NameError` for the unbound name `exceptions`.  Likewise the class
only ever assigns `self._indexes`; the `self._slices` read in the
single-string branch of `__getitem__` raises `AttributeError`. -/

/-- `NamedIndex` (named_slices.py lines 3-5). -/
structure NamedIndex where
  name : String

/-- `NamedIndexes` (named_slices.py lines 7-22). -/
structure NamedIndexes where
  _indexes : List NamedIndex

/-- Exceptions arising in `NamedIndexes.__getitem__`:
`nameError "exceptions"` models evaluating `exceptions.IndexError(...)`
with the `exceptions` module unimported, and `attributeError "_slices"`
models reading the never-assigned attribute `self._slices`. -/
inductive PyExn where
  | indexError (msg : String)
  | attributeError (attr : String)
  | nameError (name : String)

/-- `NamedIndexes.index_names` (lines 18-20). -/
def NamedIndexes.index_names (ni : NamedIndexes) : List String :=
  ni._indexes.map NamedIndex.name

/-- `NamedIndexes.index_exists` (lines 21-22). -/
def NamedIndexes.index_exists (ni : NamedIndexes) (index_name : String) : Bool :=
  ni.index_names.contains index_name

/-- `NamedIndexes.add_index` (lines 14-16). -/
def NamedIndexes.add_index (ni : NamedIndexes) (index_name : String) : NamedIndexes :=
  if !ni.index_exists index_name then { _indexes := ni._indexes ++ [{ name := index_name }] }
  else ni

/-- The nested helper `__search_index` of `__getitem__` (lines 29-34):
index of the first case-insensitive name match, else `None`. -/
def NamedIndexes.search_index (ni : NamedIndexes) (name : String) : Option Nat :=
  ni._indexes.findIdx? (fun idx => pyLower name == pyLower idx.name)

/-- The single-string branch of `NamedIndexes.__getitem__` (lines 39-45),
exactly as the source executes: on a successful case-insensitive match it
evaluates `self._slices[si]`, an attribute that does not exist
(`AttributeError`); on no match it evaluates `exceptions.IndexError(...)`
with `exceptions` unimported (`NameError`).  Neither path can return an
item. -/
def NamedIndexes.getItemStr (ni : NamedIndexes) (index : String) : Except PyExn NamedIndex :=
  match ni.search_index index with
  | some _ => Except.error (PyExn.attributeError "_slices")
  | Option.none => Except.error (PyExn.nameError "exceptions")

/-- A slice bound as found in `index.start` / `index.stop` of a Python
slice object: absent, an integer, or a name string. -/
inductive SliceBound where
  | none
  | int (i : Int)
  | str (s : String)

/-- Python's clamping of one slice index against a list of length `len`
(step 1): negative indices count from the end. -/
def pyClamp (len : Nat) (i : Int) : Nat :=
  if i < 0 then ((len : Int) + i).toNat else min i.toNat len

/-- Python list slice `xs[a:b:1]` with optional integer bounds. -/
def pySlice1 (xs : List NamedIndex) (a b : Option Int) : List NamedIndex :=
  let lo := pyClamp xs.length (a.getD 0)
  let hi := pyClamp xs.length (b.getD (xs.length : Int))
  (xs.drop lo).take (hi - lo)

/-- The slice branch of `NamedIndexes.__getitem__` (lines 46-70): resolve
a string start bound by case-insensitive lookup, resolve a string stop
bound the same way and then add one (named slices are end-inclusive,
line 63), then take `self._indexes[slice(start, stop, 1)]`.  An unresolved
string bound evaluates `exceptions.IndexError(...)` with `exceptions`
unimported, raising `NameError`. -/
def NamedIndexes.getItemSlice (ni : NamedIndexes) (start stop : SliceBound) :
    Except PyExn (List NamedIndex) :=
  let rStart : Except PyExn (Option Int) :=
    match start with
    | SliceBound.none => Except.ok Option.none
    | SliceBound.int i => Except.ok (some i)
    | SliceBound.str s =>
      match ni.search_index s with
      | some i => Except.ok (some (i : Int))
      | Option.none => Except.error (PyExn.nameError "exceptions")
  let rStop : Except PyExn (Option Int) :=
    match stop with
    | SliceBound.none => Except.ok Option.none
    | SliceBound.int i => Except.ok (some i)
    | SliceBound.str s =>
      match ni.search_index s with
      | some i => Except.ok (some ((i : Int) + 1))
      | Option.none => Except.error (PyExn.nameError "exceptions")
  match rStart, rStop with
  | Except.error e, _ => Except.error e
  | _, Except.error e => Except.error e
  | Except.ok a, Except.ok b => Except.ok (pySlice1 ni._indexes a b)

/-! Concrete instances used by the claims. -/

/-- A work unit that returns nothing (like `b_func`/`d_func`/`e_func` in
the `__main__` demo). -/
def trivialFn : FnArgs → PyVal := fun _ => PyVal.none

/-- A phase with the given name, no declared arguments or outputs, and
the default `stop_on_fail = True`. -/
def namedPhase (n : String) : Phase :=
  { name := n
    fn := trivialFn
    required_args := []
    optional_args := []
    outputs := []
    stop_on_fail := PyVal.bool true
    status := Option.none }

/-- A runner with no hooks, an empty pool, the given flag and phases. -/
def mkRunner (phases : List Phase) (pool : ArgPool) (sof : PyVal) : PhaseRunner :=
  { phases := phases
    arg_pool := pool
    stop_on_fail := sof
    first_phase := Option.none
    last_phase := Option.none
    pre_run := Option.none
    post_run := Option.none }

/-- Registered phases `[A, B, C, D, E]` from the spec's range-resolution
examples. -/
def abcRunner : PhaseRunner :=
  mkRunner [namedPhase "A", namedPhase "B", namedPhase "C", namedPhase "D", namedPhase "E"]
    [] (PyVal.bool true)

/-- A phase requiring argument `x`. -/
def c1phase : Phase :=
  { namedPhase "P" with required_args := ["x"] }

/-- A runner owning only `c1phase`, with an empty pool (so `x` is
missing). -/
def c1runner : PhaseRunner := mkRunner [c1phase] [] (PyVal.bool true)

/-- A phase whose work unit succeeds, returning `True`. -/
def okPhase : Phase :=
  { namedPhase "OK" with fn := fun _ => PyVal.bool true }

/-- A runner owning only the succeeding `okPhase`. -/
def c3runner : PhaseRunner := mkRunner [okPhase] [] (PyVal.bool true)

/-- A runner with one registered phase named `Phase A`. -/
def c4runner : PhaseRunner := mkRunner [namedPhase "Phase A"] [] (PyVal.bool true)

/-- A phase declaring two outputs whose work unit reports failure but
still returns two output values: `(False, "x", 7)`. -/
def c6phase : Phase :=
  { namedPhase "Out2" with
    fn := fun _ => PyVal.list [PyVal.bool false, PyVal.str "x", PyVal.int 7]
    outputs := ["o1", "o2"] }

/-- A phase requiring arguments `x` and `y`. -/
def c7phase : Phase :=
  { namedPhase "NeedXY" with required_args := ["x", "y"] }

/-- The `NamedIndexes` instance built by the demo at the bottom of
`named_slices.py`. -/
def animals : NamedIndexes :=
  { _indexes := [{ name := "Dog" }, { name := "Chicken" }, { name := "Hawk" },
                 { name := "Cat" }, { name := "Elephant" }] }

/-! Helper lemmas about the pool operations, index resolution and the
phase loop. -/

theorem lookup_dictSet_self (p : ArgPool) (k : String) (v : PyVal) :
    lookup (dictSet p k v) k = some v := by
  induction p with
  | nil => simp [dictSet, lookup]
  | cons kv rest ih =>
    by_cases h : kv.1 = k
    · simp [dictSet, lookup, h]
    · simp only [dictSet, lookup, beq_iff_eq, h, if_false]
      exact ih

theorem lookup_dictSet_ne (p : ArgPool) (k k₂ : String) (v : PyVal) (h : k ≠ k₂) :
    lookup (dictSet p k₂ v) k = lookup p k := by
  induction p with
  | nil => simp [dictSet, lookup, beq_iff_eq, Ne.symm h]
  | cons kv rest ih =>
    by_cases hkv : kv.1 = k₂
    · simp [dictSet, lookup, beq_iff_eq, hkv, Ne.symm h]
    · by_cases hk : kv.1 = k
      · simp [dictSet, lookup, beq_iff_eq, hkv, hk, h]
      · simp only [dictSet, lookup, beq_iff_eq, hkv, hk, if_false]
        exact ih

theorem writeOutputs_nil (pool : ArgPool) (vals : List PyVal) :
    writeOutputs pool [] vals = pool := rfl

theorem writeOutputs_cons (pool : ArgPool) (o : String) (outs : List String)
    (v : PyVal) (vals : List PyVal) :
    writeOutputs pool (o :: outs) (v :: vals) = writeOutputs (dictSet pool o v) outs vals := rfl

theorem lookup_writeOutputs_not_mem (outs : List String) (vals : List PyVal)
    (pool : ArgPool) (k : String) (h : k ∉ outs) :
    lookup (writeOutputs pool outs vals) k = lookup pool k := by
  induction outs generalizing pool vals with
  | nil => rfl
  | cons o os ih =>
    match vals with
    | [] => rfl
    | v :: vs =>
      rw [writeOutputs_cons, ih vs (dictSet pool o v) (fun hm => h (List.mem_cons_of_mem _ hm)),
        lookup_dictSet_ne pool k o v (fun hk => h (hk ▸ List.mem_cons_self o os))]

theorem lookup_writeOutputs_nth (outs : List String) (vals : List PyVal)
    (pool : ArgPool) (hnodup : outs.Nodup) (hlen : outs.length ≤ vals.length)
    (i : Fin outs.length) :
    lookup (writeOutputs pool outs vals) (outs.get i)
      = some (vals.get ⟨i, lt_of_lt_of_le i.isLt hlen⟩) := by
  induction outs generalizing pool vals with
  | nil => exact absurd i.isLt (by simp)
  | cons o os ih =>
    match vals with
    | [] => exact absurd hlen (by simp)
    | v :: vs =>
      rw [writeOutputs_cons]
      rcases i with ⟨iv, hi⟩
      match iv with
      | 0 =>
        have hno : o ∉ os := (List.nodup_cons.mp hnodup).1
        simp only [List.get]
        rw [lookup_writeOutputs_not_mem os vs (dictSet pool o v) o hno,
          lookup_dictSet_self]
      | Nat.succ j =>
        have := ih vs (dictSet pool o v) (List.nodup_cons.mp hnodup).2
          (Nat.le_of_succ_le_succ hlen) ⟨j, Nat.lt_of_succ_lt_succ hi⟩
        simpa using this

theorem _get_phase_index_ge (r : PhaseRunner) (n : String) :
    -1 ≤ r._get_phase_index n := by
  unfold PhaseRunner._get_phase_index
  cases h : r.phases.findIdx? (fun p => pyLower p.name == pyLower n) with
  | none =>
    show (-1 : Int) ≤ -1
    omega
  | some i =>
    show (-1 : Int) ≤ (i : Int)
    omega

theorem resolveLast_ne_neg_one (r : PhaseRunner) (lp : Option String) :
    r.resolveLast lp ≠ -1 := by
  cases lp with
  | none =>
    show ((r.phases.length : Nat) : Int) ≠ -1
    omega
  | some n =>
    show r._get_phase_index n + 1 ≠ -1
    have := _get_phase_index_ge r n
    omega

theorem runLoop_third (sof : PyVal) (pool : ArgPool) (ps : List Phase) :
    (runLoop sof pool ps).2.2 = Option.none
      ∨ (runLoop sof pool ps).2.2 = some (PyVal.bool false) := by
  induction ps generalizing pool with
  | nil => exact Or.inl rfl
  | cons p rest ih =>
    rw [runLoop]
    split
    · exact Or.inr rfl
    · have := ih (((p.run (some pool)).pool).getD pool)
      split
      next pool'' rest' res heq =>
        rw [heq] at this
        simpa using this

/-! Claim theorems. -/

/-- Claim C1, counterexample: a phase whose execution raises
`MissingRequiredArguments` does NOT surface that error through
`run_phases`.  Standalone, `c1phase.run` raises it; through the runner the
`except Exception` handler of the phase loop catches it, records a failed
phase, and `run_phases` returns `False` normally. -/
theorem C1_error_swallowed_cex :
    (c1phase.run (some [])).result
        = Except.error (PRErr.missingRequiredArguments "P" ["x"])
    ∧ c1runner.run_phases Option.none Option.none
        = Except.ok (PyVal.bool false, [], [c1phase]) :=
  ⟨rfl, rfl⟩

/-- Claim C1, amended: configuration errors raised inside a phase's
execution (`MissingRequiredArguments`, `ContractViolation`,
`MissingOutputs`) are caught by the phase loop of `run_phases` and
recorded as a failed-phase status; once range resolution has produced a
phase list, `run_phases` never propagates any error to its caller. -/
theorem C1_phase_errors_not_propagated (r : PhaseRunner) (fp lp : Option String)
    (ps : List Phase)
    (h : r._get_phases (pyOrOpt fp r.first_phase) (pyOrOpt lp r.last_phase)
          = Except.ok (Sum.inl ps)) :
    ∃ out, r.run_phases fp lp = Except.ok out := by
  unfold PhaseRunner.run_phases
  dsimp only
  rw [h]
  dsimp only
  by_cases hpre : hookAborts r.pre_run r.stop_on_fail
  · rw [if_pos hpre]
    exact ⟨_, rfl⟩
  · rw [if_neg hpre]
    rcases hrl : runLoop r.stop_on_fail r.arg_pool ps with ⟨pool', phases', res⟩
    cases res with
    | some v => exact ⟨_, rfl⟩
    | none =>
      dsimp only
      by_cases hpost : hookAborts r.post_run r.stop_on_fail
      · rw [if_pos hpost]
        exact ⟨_, rfl⟩
      · rw [if_neg hpost]
        exact ⟨_, rfl⟩

/-- Witness for C1's amended theorem at the concrete runner whose only
phase raises `MissingRequiredArguments`. -/
theorem C1_phase_errors_not_propagated_witness :
    ∃ out, c1runner.run_phases Option.none Option.none = Except.ok out :=
  C1_phase_errors_not_propagated c1runner Option.none Option.none [c1phase] rfl

/-- Claim C2 (code bug): a non-absent unknown last-bound name never
produces the unknown-phase error.  `_get_phase_index` returns `-1`, the
code adds `1` before its own `last_index == -1` check, so the check is
unreachable: with a known first bound after index 0 the call fails with
`InvalidRange` instead, and with an absent (or index-0) first bound it
silently returns the single first phase object.  An unknown FIRST bound
does produce the unknown-phase error, witnessing the intent of the dead
check. -/
theorem C2_unknown_last_bound_bug :
    abcRunner._get_phases (some "B") (some "Zed")
        = Except.error (PRErr.invalidRange (some "B") (some "Zed"))
    ∧ abcRunner._get_phases Option.none (some "Zed")
        = Except.ok (Sum.inr (namedPhase "A"))
    ∧ abcRunner._get_phases (some "Zed") (some "D")
        = Except.error (PRErr.unknownFirstPhase "Zed") :=
  ⟨rfl, rfl, rfl⟩

/-- Claim C3, counterexample: a run that triggers no abort condition does
NOT return the status of the last executed step.  The single phase
succeeds (its recorded status is `True`), yet `run_phases` falls off the
end and returns `None`. -/
theorem C3_returns_none_on_success_cex :
    c3runner.run_phases Option.none Option.none
        = Except.ok (PyVal.none, [], [{ okPhase with status := some true }])
    ∧ PyVal.none ≠ PyVal.bool true := by
  refine ⟨rfl, ?_⟩
  intro hc
  exact PyVal.noConfusion hc

/-- Claim C3, amended: `run_phases` returns `False` as soon as any abort
condition triggers, and otherwise returns no value (Python `None`) — it
never returns the boolean status of the last executed phase or hook. -/
theorem C3_abort_false_else_none (r : PhaseRunner) (fp lp : Option String)
    (v : PyVal) (pool : ArgPool) (phs : List Phase)
    (h : r.run_phases fp lp = Except.ok (v, pool, phs)) :
    v = PyVal.bool false ∨ v = PyVal.none := by
  unfold PhaseRunner.run_phases at h
  dsimp only at h
  cases hg : r._get_phases (pyOrOpt fp r.first_phase) (pyOrOpt lp r.last_phase) with
  | error e =>
    rw [hg] at h
    exact absurd h (by simp)
  | ok sel =>
    rw [hg] at h
    dsimp only at h
    by_cases hpre : hookAborts r.pre_run r.stop_on_fail
    · rw [if_pos hpre] at h
      injection h with h2
      injection h2 with hv hrest
      exact Or.inl hv.symm
    · rw [if_neg hpre] at h
      cases sel with
      | inr p => exact absurd h (by simp)
      | inl phases =>
        dsimp only at h
        rcases hrl : runLoop r.stop_on_fail r.arg_pool phases with ⟨pool', phases', res⟩
        rw [hrl] at h
        cases res with
        | some v' =>
          dsimp only at h
          rcases runLoop_third r.stop_on_fail r.arg_pool phases with h3 | h3 <;>
            rw [hrl] at h3
          · exact absurd h3 (by simp)
          · injection h3 with h4
            injection h with h2
            injection h2 with hv hrest
            exact Or.inl (hv ▸ h4)
        | none =>
          dsimp only at h
          by_cases hpost : hookAborts r.post_run r.stop_on_fail
          · rw [if_pos hpost] at h
            injection h with h2
            injection h2 with hv hrest
            exact Or.inl hv.symm
          · rw [if_neg hpost] at h
            injection h with h2
            injection h2 with hv hrest
            exact Or.inr hv.symm

/-- Witness for C3's amended theorem: the successful single-phase run
returns `None`. -/
theorem C3_abort_false_else_none_witness :
    PyVal.none = PyVal.bool false ∨ PyVal.none = PyVal.none :=
  C3_abort_false_else_none c3runner Option.none Option.none PyVal.none []
    [{ okPhase with status := some true }] rfl

/-- Claim C4, counterexample: with `Phase A` registered, adding
`phase a` (same name up to case) does not fail with `DuplicatePhase`; it
is registered as a second phase. -/
theorem C4_case_insensitive_duplicate_cex :
    (c4runner.add_phase "phase a" trivialFn [] [] [] Option.none).map
        PhaseRunner.phase_list
      = Except.ok ["Phase A", "phase a"] :=
  rfl

/-- Claim C4, amended: `add_phase` fails with `DuplicatePhase` exactly
when the new name is already registered under a case-SENSITIVE exact
comparison (`phase_exists` tests plain list membership); names differing
only in case are accepted. -/
theorem C4_duplicate_exact_match (r : PhaseRunner) (n : String)
    (f : FnArgs → PyVal) (req opt out : List String) (sofkw : Option PyVal) :
    r.add_phase n f req opt out sofkw = Except.error (PRErr.duplicatePhase n)
      ↔ n ∈ r.phase_list := by
  unfold PhaseRunner.add_phase PhaseRunner.phase_exists
  by_cases h : n ∈ r.phase_list
  · simp [h]
  · simp [h]

/-- Claim C5: range resolution by name is end-inclusive, and an absent
end bound means through the end of the list.  Over registered phases
`[A, B, C, D, E]`, resolving from `B` to `D` yields exactly `[B, C, D]`
and resolving with an absent start and end `D` yields `[A, B, C, D]`; the
reusable `NamedIndexes` slice shows the same end-inclusive behavior. -/
theorem C5_end_inclusive_ranges :
    abcRunner._get_phases (some "B") (some "D")
        = Except.ok (Sum.inl [namedPhase "B", namedPhase "C", namedPhase "D"])
    ∧ abcRunner._get_phases Option.none (some "D")
        = Except.ok (Sum.inl
            [namedPhase "A", namedPhase "B", namedPhase "C", namedPhase "D"])
    ∧ (animals.getItemSlice (SliceBound.str "Chicken") (SliceBound.str "Cat")).map
          (List.map NamedIndex.name)
        = Except.ok ["Chicken", "Hawk", "Cat"] :=
  ⟨rfl, rfl, rfl⟩

/-- Claim C6: when a phase declares outputs and its work unit returns a
sequence passing the shape check (a boolean first element followed by at
least as many values as declared outputs), the run succeeds with that
boolean — true or false alike — and every declared output is written
positionally into the pool. -/
theorem C6_outputs_written_regardless_of_status (ph : Phase) (pool : ArgPool)
    (b : Bool) (rest : List PyVal)
    (hreq : ∀ k ∈ ph.required_args, hasKey pool k = true)
    (hfn : ∀ args, ph.fn args = PyVal.list (PyVal.bool b :: rest))
    (hlen : ph.outputs.length ≤ rest.length)
    (hnodup : ph.outputs.Nodup) :
    (ph.run (some pool)).result = Except.ok b
    ∧ (ph.run (some pool)).pool = some (writeOutputs pool ph.outputs rest)
    ∧ ∀ i : Fin ph.outputs.length,
        lookup (writeOutputs pool ph.outputs rest) (ph.outputs.get i)
          = some (rest.get ⟨i, lt_of_lt_of_le i.isLt hlen⟩) := by
  have hmiss : ph.required_args.filter (fun req => !hasKey pool req) = [] := by
    apply List.filter_eq_nil_iff.mpr
    intro k hkmem
    simp [hreq k hkmem]
  have hrun : ph.run (some pool) = ph.finish (some pool) b rest := by
    simp [Phase.run, hmiss, hfn]
  have hnotlt : ¬rest.length < ph.outputs.length := Nat.not_lt.mpr hlen
  refine ⟨?_, ?_, fun i => lookup_writeOutputs_nth ph.outputs rest pool hnodup hlen i⟩
  · rw [hrun]
    unfold Phase.finish
    by_cases he : ph.outputs.isEmpty <;> simp [he, hnotlt]
  · rw [hrun]
    unfold Phase.finish
    by_cases he : ph.outputs.isEmpty
    · have houts : ph.outputs = [] := List.isEmpty_iff.mp he
      simp [he, houts, writeOutputs_nil]
    · simp [he, hnotlt]

/-- Witness for C6 at a phase declaring two outputs whose work unit
reports failure yet returns both outputs: both are written. -/
theorem C6_witness :
    (c6phase.run (some [])).result = Except.ok false
    ∧ (c6phase.run (some [])).pool
        = some (writeOutputs [] ["o1", "o2"] [PyVal.str "x", PyVal.int 7]) :=
  ⟨(C6_outputs_written_regardless_of_status c6phase [] false
      [PyVal.str "x", PyVal.int 7] (by simp [c6phase, namedPhase])
      (fun _ => rfl) (by decide) (by decide)).1,
   (C6_outputs_written_regardless_of_status c6phase [] false
      [PyVal.str "x", PyVal.int 7] (by simp [c6phase, namedPhase])
      (fun _ => rfl) (by decide) (by decide)).2.1⟩

/-- Claim C7: a phase with a missing required argument fails with
`MissingRequiredArguments` listing exactly the required names absent from
the pool (all of them, not just the first), and the work unit is never
invoked — the outcome of `run` is independent of the phase's function. -/
theorem C7_missing_required_arguments (ph : Phase) (pool : ArgPool) (k₀ : String)
    (hk : k₀ ∈ ph.required_args) (habs : hasKey pool k₀ = false) :
    (ph.run (some pool)).result
        = Except.error (PRErr.missingRequiredArguments ph.name
            (ph.required_args.filter (fun req => !hasKey pool req)))
    ∧ (∀ k, k ∈ ph.required_args.filter (fun req => !hasKey pool req)
          ↔ k ∈ ph.required_args ∧ hasKey pool k = false)
    ∧ ∀ g, Phase.run { ph with fn := g } (some pool) = ph.run (some pool) := by
  have hmem : k₀ ∈ ph.required_args.filter (fun req => !hasKey pool req) :=
    List.mem_filter.mpr ⟨hk, by simp [habs]⟩
  have hlen : (ph.required_args.filter (fun req => !hasKey pool req)).length > 0 :=
    List.length_pos.mpr (List.ne_nil_of_mem hmem)
  refine ⟨?_, ?_, ?_⟩
  · simp [Phase.run, hlen]
  · intro k
    simp [List.mem_filter]
  · intro g
    simp [Phase.run, hlen]

/-- Witness for C7: requiring `x` and `y` over a pool containing only
`z` reports both missing names. -/
theorem C7_witness :
    (c7phase.run (some [("z", PyVal.int 1)])).result
      = Except.error (PRErr.missingRequiredArguments "NeedXY" ["x", "y"]) :=
  (C7_missing_required_arguments c7phase [("z", PyVal.int 1)] "x"
    (by decide) rfl).1

/-- Claim C8: whenever the resolved bounds satisfy
`last_index < first_index` (with the first bound successfully resolved),
`_get_phases` fails with `InvalidRange`; `resolveFirst`/`resolveLast` are
exactly the index computations of lines 196-197, including the `+ 1` for
a named end bound. -/
theorem C8_invalid_range (r : PhaseRunner) (fp lp : Option String)
    (h1 : r.resolveFirst fp ≠ -1)
    (h2 : r.resolveLast lp < r.resolveFirst fp) :
    r._get_phases fp lp = Except.error (PRErr.invalidRange fp lp) := by
  unfold PhaseRunner._get_phases
  simp [h1, resolveLast_ne_neg_one r lp, h2]

/-- Witness for C8 at the spec's example: over `[A, B, C, D, E]`,
resolving from `D` to `B` fails with `InvalidRange`. -/
theorem C8_witness :
    abcRunner._get_phases (some "D") (some "B")
      = Except.error (PRErr.invalidRange (some "D") (some "B")) :=
  C8_invalid_range abcRunner (some "D") (some "B") (by decide) (by decide)

/-- Claim C9 (code bug): the single-string branch of
`NamedIndexes.__getitem__` can never return an item.  The case-insensitive
search itself works (`chicken` finds index 1), but the success path reads
the never-assigned attribute `self._slices` (the list is `self._indexes`),
raising `AttributeError`; the no-match path evaluates
`exceptions.IndexError(...)` with the `exceptions` module unimported,
raising `NameError` instead of the intended name-not-found error. -/
theorem C9_getitem_string_bug :
    animals.search_index "chicken" = some 1
    ∧ animals.getItemStr "chicken" = Except.error (PyExn.attributeError "_slices")
    ∧ animals.search_index "Zebra" = Option.none
    ∧ animals.getItemStr "Zebra" = Except.error (PyExn.nameError "exceptions") :=
  ⟨rfl, rfl, rfl, rfl⟩

/-- Claim C10: the runner-wide stop-on-failure flag is truthy after any
construction (`kwargs.get("stop_on_fail") or True`); for a boolean or
absent `stop_on_fail` keyword argument it is exactly `True` (a passed
`False` is coerced to `True`), and only the property setter can assign an
arbitrary — in particular falsy — value afterwards. -/
theorem C10_stop_on_fail_init (kwargs kw2 : List (String × PyVal)) (b : Bool)
    (r : PhaseRunner) (v : PyVal)
    (hb : lookup kw2 "stop_on_fail" = some (PyVal.bool b)
          ∨ lookup kw2 "stop_on_fail" = Option.none) :
    truthy (PhaseRunner.init kwargs).stop_on_fail = true
    ∧ (PhaseRunner.init kw2).stop_on_fail = PyVal.bool true
    ∧ (r.set_stop_on_fail v).stop_on_fail = v := by
  refine ⟨?_, ?_, rfl⟩
  · show truthy (pyOr ((lookup kwargs "stop_on_fail").getD PyVal.none)
        (PyVal.bool true)) = true
    unfold pyOr
    cases hx : truthy ((lookup kwargs "stop_on_fail").getD PyVal.none)
    · simp [hx, truthy]
    · simp [hx]
  · show pyOr ((lookup kw2 "stop_on_fail").getD PyVal.none) (PyVal.bool true)
        = PyVal.bool true
    rcases hb with hb | hb
    · rw [hb]
      cases b <;> rfl
    · rw [hb]
      rfl

/-- Witness for C10: constructing with `stop_on_fail=False` still yields a
flag equal to `True`; the setter then assigns `False`. -/
theorem C10_witness :
    truthy (PhaseRunner.init [("stop_on_fail", PyVal.bool false)]).stop_on_fail = true
    ∧ (PhaseRunner.init [("stop_on_fail", PyVal.bool false)]).stop_on_fail
        = PyVal.bool true
    ∧ ((PhaseRunner.init []).set_stop_on_fail (PyVal.bool false)).stop_on_fail
        = PyVal.bool false :=
  C10_stop_on_fail_init [("stop_on_fail", PyVal.bool false)]
    [("stop_on_fail", PyVal.bool false)] false (PhaseRunner.init [])
    (PyVal.bool false) (Or.inl rfl)

end Phaserunner
